import Mathlib

/-!
Verification of the polling-place simulation (`simulate.py`).

Times (arrival, start, departure, gaps, durations) are Python floats in the
source; they are embedded as rationals `ℚ`, since no claim depends on
floating-point rounding.  The random variate generator
`util.gen_voter_parameters` is an external collaborator: it is abstracted as
a function `Rng` giving, for each straight-ticket percentage, straight-ticket
duration, seed and call index, the `(gap, voting_duration)` pair produced by
the seeded generator on its successive calls.

`queue.PriorityQueue` is embedded as a list of departure times kept sorted
ascending: `put` is ordered insertion, `get` removes the head.  This has the
same observable behaviour (size, `full`, sequence of popped minima) as the
binary heap used by Python.  `PriorityQueue(n)` with `n = 0` is unbounded in
Python (`full()` is then always false), which the embedding reproduces.
-/

/-- Failure modes of the aggregation code.  Here `noVotersAdmitted` embeds
the `ZeroDivisionError` raised when a trial yields no voters (the error the
design calls `NoVotersAdmitted`); `indexError` embeds the out-of-range list
access when `ntrials = 0`; `typeError` embeds the `TypeError` that summing a
`None` wait would raise. -/
inductive SimErr : Type
  | noVotersAdmitted : SimErr
  | indexError : SimErr
  | typeError : SimErr
deriving DecidableEq

/-- Constructor of `Voter`: arrival time and voting duration are fixed at
creation; start and departure times begin unset (`None`). -/
structure Voter : Type where
  arrival_time : ℚ
  voting_duration : ℚ
  start_time : Option ℚ
  departure_time : Option ℚ
deriving DecidableEq

/-- Embedding of `Voter.get_wait`: `start_time - arrival_time` when the start
time is set, `None` otherwise. -/
def Voter.get_wait (v : Voter) : Option ℚ :=
  v.start_time.map (fun s => s - v.arrival_time)

/-- Embedding of `VotingBooths`: the booths of one precinct, as the multiset
of departure times of the occupants, kept sorted ascending (priority-queue
order), with the configured bound `num_booths`. -/
structure VotingBooths : Type where
  num_booths : ℕ
  entries : List ℚ
deriving DecidableEq

/-- Constructor of `VotingBooths`: an empty priority queue bounded by
`num_booths`. -/
def VotingBooths.init (num_booths : ℕ) : VotingBooths :=
  ⟨num_booths, []⟩

/-- Embedding of `VotingBooths.full`, i.e. `queue.PriorityQueue.full`: true
iff the bound is positive and the occupied count has reached it (a `maxsize`
of `0` means unbounded in Python, never full). -/
def VotingBooths.full (b : VotingBooths) : Prop :=
  0 < b.num_booths ∧ b.num_booths ≤ b.entries.length

instance (b : VotingBooths) : Decidable b.full := by
  unfold VotingBooths.full; infer_instance

/-- Embedding of `VotingBooths.enter`: enqueue the departure time of the
voter (always set by the caller; `getD 0` is never exercised by the
simulator). -/
def VotingBooths.enter (b : VotingBooths) (v : Voter) : VotingBooths :=
  ⟨b.num_booths, b.entries.orderedInsert (· ≤ ·) (v.departure_time.getD 0)⟩

/-- Embedding of `VotingBooths.depart`: dequeue and return the earliest
departure time (the head of the sorted entry list). -/
def VotingBooths.depart (b : VotingBooths) : ℚ × VotingBooths :=
  (b.entries.headD 0, ⟨b.num_booths, b.entries.tail⟩)

/-- Constructor of `Precinct`: the configuration record. -/
structure Precinct : Type where
  name : String
  hours_open : ℕ
  max_num_voters : ℕ
  num_booths : ℕ
  arrival_rate : ℚ
  voting_duration_rate : ℚ

/-- The abstracted random variate generator: given the straight-ticket
percentage, the straight-ticket duration, the seed, and the index of the
call since seeding, the `(gap, voting_duration)` pair that
`util.gen_voter_parameters` returns on that call. -/
abbrev Rng : Type := ℚ → ℚ → ℕ → ℕ → ℚ × ℚ

/-- Embedding of `Precinct.next_voter`: the arrival time is the previous
arrival time plus the generated gap; scheduling fields start unset. -/
def next_voter (time gap voting_duration : ℚ) : Voter :=
  ⟨time + gap, voting_duration, none, none⟩

/-- Embedding of `Precinct.simulate_single_vote`: resolve one voter against
the booths.  If the booths are not full the voter starts on arrival;
otherwise the earliest departure is dequeued and the voter starts at the
later of it and the arrival time.  The departure time is start plus duration
and is entered into the booths. -/
def simulate_single_vote (voter : Voter) (booths : VotingBooths) :
    Voter × VotingBooths :=
  if ¬ booths.full then
    let v : Voter := { voter with
      start_time := some voter.arrival_time,
      departure_time := some (voter.arrival_time + voter.voting_duration) }
    (v, booths.enter v)
  else
    let earliest_departure := booths.depart.1
    let booths1 := booths.depart.2
    let st : ℚ :=
      if earliest_departure < voter.arrival_time then voter.arrival_time
      else earliest_departure
    let v : Voter := { voter with
      start_time := some st,
      departure_time := some (st + voter.voting_duration) }
    (v, booths1.enter v)

/-- The body of the `for` loop of `Precinct.simulate`: `fuel` iterations
remain, `i` calls to the generator have been made, `time` is the previous
arrival time.  The loop breaks (returning no further voters) at the first
generated arrival time strictly past `closing_time`. -/
def simulateFrom (gen : ℕ → ℚ × ℚ) (closing_time : ℚ) :
    ℕ → ℕ → ℚ → VotingBooths → List Voter
  | 0, _, _, _ => []
  | fuel + 1, i, time, booths =>
    let voter := next_voter time (gen i).1 (gen i).2
    if voter.arrival_time > closing_time then []
    else
      let r := simulate_single_vote voter booths
      r.1 :: simulateFrom gen closing_time fuel (i + 1) r.1.arrival_time r.2

/-- Embedding of `Precinct.simulate`: seed the generator, run at most
`max_num_voters` voters from time `0.0` against fresh booths, closing at
`hours_open * 60`. -/
def Precinct.simulate (p : Precinct) (rng : Rng)
    (percent_straight_ticket straight_ticket_duration : ℚ) (seed : ℕ) :
    List Voter :=
  simulateFrom (rng percent_straight_ticket straight_ticket_duration seed)
    ((p.hours_open : ℚ) * 60) p.max_num_voters 0 0
    (VotingBooths.init p.num_booths)

/-- The booth states after each admission of the loop of `Precinct.simulate`
(instrumentation of `simulateFrom` for the capacity invariant). -/
def simulateBoothsFrom (gen : ℕ → ℚ × ℚ) (closing_time : ℚ) :
    ℕ → ℕ → ℚ → VotingBooths → List VotingBooths
  | 0, _, _, _ => []
  | fuel + 1, i, time, booths =>
    let voter := next_voter time (gen i).1 (gen i).2
    if voter.arrival_time > closing_time then []
    else
      let r := simulate_single_vote voter booths
      r.2 :: simulateBoothsFrom gen closing_time fuel (i + 1) r.1.arrival_time r.2

/-- The booth states after each admission during `Precinct.simulate`. -/
def Precinct.simulateBooths (p : Precinct) (rng : Rng)
    (percent_straight_ticket straight_ticket_duration : ℚ) (seed : ℕ) :
    List VotingBooths :=
  simulateBoothsFrom (rng percent_straight_ticket straight_ticket_duration seed)
    ((p.hours_open : ℚ) * 60) p.max_num_voters 0 0
    (VotingBooths.init p.num_booths)

/-- The Python builtin `sum` over the mapped `get_wait` values: `some` of the
sum when every wait is set, `none` (a `TypeError` in Python) otherwise; the
sum of the empty list is `0`. -/
def optSum : List (Option ℚ) → Option ℚ
  | [] => some 0
  | o :: rest => do
    let x ← o
    let s ← optSum rest
    pure (x + s)

/-- The per-trial average in `find_avg_wait_time`:
`sum([v.get_wait() for v in voters]) / len(voters)`, failing on an empty
trial (`ZeroDivisionError`, the degenerate-trial error of the design). -/
def avg_wait (voters : List Voter) : Except SimErr ℚ :=
  match optSum (voters.map Voter.get_wait) with
  | none => .error .typeError
  | some s =>
    if voters.length = 0 then .error .noVotersAdmitted
    else .ok (s / (voters.length : ℚ))

/-- The trial loop of `find_avg_wait_time`: run the remaining `fuel` trials
starting at trial index `i`, simulating with seed `initial_seed + i`, and
collect the per-trial averages in trial order, propagating the first
failure. -/
def trial_avg_list (p : Precinct) (rng : Rng)
    (percent_straight_ticket straight_ticket_duration : ℚ)
    (initial_seed : ℕ) : ℕ → ℕ → Except SimErr (List ℚ)
  | 0, _ => .ok []
  | fuel + 1, i => do
    let voters := p.simulate rng percent_straight_ticket
      straight_ticket_duration (initial_seed + i)
    let a ← avg_wait voters
    let rest ← trial_avg_list p rng percent_straight_ticket
      straight_ticket_duration initial_seed fuel (i + 1)
    pure (a :: rest)

/-- The tail of `find_avg_wait_time`: `avg_wait_lst.sort()` followed by
`avg_wait_lst[ntrials // 2]` (an out-of-range index is an `IndexError`). -/
def selectMedian (avg_wait_lst : List ℚ) (ntrials : ℕ) : Except SimErr ℚ :=
  match (avg_wait_lst.insertionSort (· ≤ ·))[ntrials / 2]? with
  | some x => .ok x
  | none => .error .indexError

/-- Embedding of `find_avg_wait_time`: run `ntrials` seeded trials, average
each, sort the averages and take the element at index `ntrials // 2`. -/
def find_avg_wait_time (p : Precinct) (rng : Rng)
    (percent_straight_ticket straight_ticket_duration : ℚ)
    (ntrials : ℕ) (initial_seed : ℕ) : Except SimErr ℚ := do
  let avg_wait_lst ← trial_avg_list p rng percent_straight_ticket
    straight_ticket_duration initial_seed ntrials 0
  selectMedian avg_wait_lst ntrials

/-- The sweep loop of `find_percent_split_ticket`: iterate
`percent_split_ticket = i / 10` while `fuel` iterations remain, stopping at
the first value whose median average wait strictly exceeds the target;
exhausting the sweep yields the sentinel `(1, None)`. -/
def split_loop (p : Precinct) (rng : Rng)
    (straight_ticket_duration target_wait_time : ℚ)
    (ntrials seed : ℕ) : ℕ → ℕ → Except SimErr (ℚ × Option ℚ)
  | 0, _ => .ok (1, none)
  | fuel + 1, i => do
    let percent_split_ticket : ℚ := (i : ℚ) / 10
    let percent_straight_ticket : ℚ := 1 - percent_split_ticket
    let avg_wait_time ← find_avg_wait_time p rng percent_straight_ticket
      straight_ticket_duration ntrials seed
    if avg_wait_time > target_wait_time then
      .ok (percent_split_ticket, some avg_wait_time)
    else
      split_loop p rng straight_ticket_duration target_wait_time ntrials seed
        fuel (i + 1)

/-- Embedding of `find_percent_split_ticket`: sweep the 11 split percentages
`0.0, 0.1, …, 1.0` in increasing order. -/
def find_percent_split_ticket (p : Precinct) (rng : Rng)
    (straight_ticket_duration target_wait_time : ℚ)
    (ntrials seed : ℕ) : Except SimErr (ℚ × Option ℚ) :=
  split_loop p rng straight_ticket_duration target_wait_time ntrials seed 11 0

/-- Modelled from the words of the spec, for comparison with `avg_wait`: the
arithmetic mean of `startTime - arrivalTime` over the admitted voters. -/
def specMeanWait (voters : List Voter) : ℚ :=
  (voters.map (fun v => v.start_time.getD 0 - v.arrival_time)).sum /
    (voters.length : ℚ)

/-- The arrival time of the `j`-th voter generated after the loop state
`(time, i)`: successive prefix sums of the generated gaps. -/
def arrivalsFrom (gen : ℕ → ℚ × ℚ) (time : ℚ) (i : ℕ) : ℕ → ℚ
  | 0 => time + (gen i).1
  | j + 1 => arrivalsFrom gen (time + (gen i).1) (i + 1) j

/-- The arrival time of the `j`-th generated voter of a trial (`j = 0` is the
first voter, generated from time `0.0`). -/
def arrivals (gen : ℕ → ℚ × ℚ) (j : ℕ) : ℚ :=
  arrivalsFrom gen 0 0 j

example :
    simulate_single_vote ⟨3, 2, none, none⟩ ⟨1, [5]⟩ =
      (⟨3, 2, some 5, some 7⟩, ⟨1, [7]⟩) := by
  norm_num [simulate_single_vote, VotingBooths.full, VotingBooths.enter,
    VotingBooths.depart, List.orderedInsert]

example :
    simulate_single_vote ⟨3, 2, none, none⟩ ⟨2, [5]⟩ =
      (⟨3, 2, some 3, some 5⟩, ⟨2, [5, 5]⟩) := by
  norm_num [simulate_single_vote, VotingBooths.full, VotingBooths.enter,
    VotingBooths.depart, List.orderedInsert]

example : selectMedian [3, 1, 2] 3 = .ok 2 := by rfl

example : selectMedian [1, 2, 3, 4] 4 = .ok 3 := by rfl

theorem simulate_single_vote_arrival (v : Voter) (b : VotingBooths) :
    (simulate_single_vote v b).1.arrival_time = v.arrival_time := by
  unfold simulate_single_vote
  split <;> rfl

theorem simulate_single_vote_duration (v : Voter) (b : VotingBooths) :
    (simulate_single_vote v b).1.voting_duration = v.voting_duration := by
  unfold simulate_single_vote
  split <;> rfl

theorem simulate_single_vote_num_booths (v : Voter) (b : VotingBooths) :
    (simulate_single_vote v b).2.num_booths = b.num_booths := by
  unfold simulate_single_vote
  split <;> rfl

theorem enter_length (b : VotingBooths) (v : Voter) :
    (b.enter v).entries.length = b.entries.length + 1 := by
  simp [VotingBooths.enter, List.orderedInsert_length]

theorem enter_sorted (b : VotingBooths) (v : Voter)
    (h : b.entries.Sorted (· ≤ ·)) :
    (b.enter v).entries.Sorted (· ≤ ·) :=
  h.orderedInsert _ _

theorem simulate_single_vote_sorted (v : Voter) (b : VotingBooths)
    (h : b.entries.Sorted (· ≤ ·)) :
    (simulate_single_vote v b).2.entries.Sorted (· ≤ ·) := by
  unfold simulate_single_vote
  split
  · exact enter_sorted _ _ h
  · exact enter_sorted ⟨b.num_booths, b.entries.tail⟩ _ h.tail

theorem simulate_single_vote_resolved (v : Voter) (b : VotingBooths) :
    ∃ st : ℚ, (simulate_single_vote v b).1.start_time = some st ∧
      (simulate_single_vote v b).1.departure_time = some (st + v.voting_duration) ∧
      v.arrival_time ≤ st := by
  unfold simulate_single_vote
  split
  · exact ⟨v.arrival_time, rfl, rfl, le_refl _⟩
  · by_cases h2 : b.depart.1 < v.arrival_time
    · exact ⟨v.arrival_time, by simp [h2], by simp [h2], le_refl _⟩
    · exact ⟨b.depart.1, by simp [h2], by simp [h2], le_of_not_lt h2⟩

theorem simulate_single_vote_not_full (v : Voter) (b : VotingBooths)
    (h : ¬ b.full) :
    (simulate_single_vote v b).1.start_time = some v.arrival_time := by
  unfold simulate_single_vote
  simp [h]

theorem enter_entries (b : VotingBooths) (v : Voter) :
    (b.enter v).entries
      = b.entries.orderedInsert (· ≤ ·) (v.departure_time.getD 0) :=
  rfl

theorem simulate_single_vote_not_full_eq (v : Voter) (b : VotingBooths)
    (h : ¬ b.full) :
    simulate_single_vote v b =
      ({ v with
          start_time := some v.arrival_time,
          departure_time := some (v.arrival_time + v.voting_duration) },
        b.enter { v with
          start_time := some v.arrival_time,
          departure_time := some (v.arrival_time + v.voting_duration) }) := by
  unfold simulate_single_vote
  simp [h]

theorem simulate_single_vote_full_eq (v : Voter) (b : VotingBooths)
    (h : b.full) :
    simulate_single_vote v b =
      ({ v with
          start_time := some (if b.depart.1 < v.arrival_time
            then v.arrival_time else b.depart.1),
          departure_time := some ((if b.depart.1 < v.arrival_time
            then v.arrival_time else b.depart.1) + v.voting_duration) },
        b.depart.2.enter { v with
          start_time := some (if b.depart.1 < v.arrival_time
            then v.arrival_time else b.depart.1),
          departure_time := some ((if b.depart.1 < v.arrival_time
            then v.arrival_time else b.depart.1) + v.voting_duration) }) := by
  unfold simulate_single_vote
  simp [h]

/-- C1: in `simulate_single_vote`, a voter resolved against non-full booths
starts at its arrival time; against full booths the earliest departure time
`E` (the minimum entry, the head of the sorted pool) is evicted and the start
time is the arrival time when `E` is strictly earlier, otherwise `E`; in
every case the departure time is the start time plus the voting duration and
is inserted into the pool. -/
theorem simulate_single_vote_admission (v : Voter) (b : VotingBooths)
    (hs : b.entries.Sorted (· ≤ ·)) :
    ∃ st : ℚ,
      (simulate_single_vote v b).1.start_time = some st ∧
      (simulate_single_vote v b).1.departure_time = some (st + v.voting_duration) ∧
      (¬ b.full →
        st = v.arrival_time ∧
        (simulate_single_vote v b).2.entries.Perm
          ((st + v.voting_duration) :: b.entries)) ∧
      (b.full →
        ∃ E rest, b.entries = E :: rest ∧ (∀ x ∈ b.entries, E ≤ x) ∧
          st = (if E < v.arrival_time then v.arrival_time else E) ∧
          (simulate_single_vote v b).2.entries.Perm
            ((st + v.voting_duration) :: rest)) := by
  by_cases h : b.full
  · have hne : b.entries ≠ [] := by
      intro h0
      have h2 := h.2
      have h1 := h.1
      rw [h0] at h2
      simp at h2
      omega
    obtain ⟨E, rest, hb⟩ := List.exists_cons_of_ne_nil hne
    have hmin : ∀ x ∈ b.entries, E ≤ x := by
      intro x hx
      rw [hb] at hx
      rcases List.mem_cons.mp hx with rfl | hx
      · exact le_refl _
      · rw [hb] at hs
        exact (List.sorted_cons.mp hs).1 x hx
    have hdep1 : b.depart.1 = E := by simp [VotingBooths.depart, hb]
    have hdep2 : b.depart.2.entries = rest := by simp [VotingBooths.depart, hb]
    rw [simulate_single_vote_full_eq v b h]
    refine ⟨if E < v.arrival_time then v.arrival_time else E, ?_, ?_, ?_, ?_⟩
    · simp [hdep1]
    · simp [hdep1]
    · intro hc; exact absurd h hc
    · intro _
      refine ⟨E, rest, hb, hmin, rfl, ?_⟩
      rw [enter_entries, hdep2]
      simpa [hdep1] using
        List.perm_orderedInsert (· ≤ ·)
          ((if E < v.arrival_time then v.arrival_time else E) + v.voting_duration)
          rest
  · rw [simulate_single_vote_not_full_eq v b h]
    refine ⟨v.arrival_time, rfl, rfl, ?_, ?_⟩
    · intro _
      refine ⟨rfl, ?_⟩
      rw [enter_entries]
      simpa using
        List.perm_orderedInsert (· ≤ ·)
          (v.arrival_time + v.voting_duration) b.entries
    · intro hc; exact absurd hc h

theorem simulate_single_vote_length_not_full (v : Voter) (b : VotingBooths)
    (h : ¬ b.full) :
    (simulate_single_vote v b).2.entries.length = b.entries.length + 1 := by
  rw [simulate_single_vote_not_full_eq v b h]
  exact enter_length b _

theorem simulate_single_vote_length_full (v : Voter) (b : VotingBooths)
    (h : b.full) :
    (simulate_single_vote v b).2.entries.length = b.entries.length := by
  have h1 : 0 < b.entries.length := lt_of_lt_of_le h.1 h.2
  rw [simulate_single_vote_full_eq v b h]
  simp only [enter_length, VotingBooths.depart, List.length_tail]
  omega

theorem simulate_single_vote_capacity (v : Voter) (b : VotingBooths)
    (hpos : 0 < b.num_booths) (hle : b.entries.length ≤ b.num_booths) :
    (simulate_single_vote v b).2.entries.length ≤ b.num_booths := by
  by_cases h : b.full
  · rw [simulate_single_vote_length_full v b h]
    exact hle
  · rw [simulate_single_vote_length_not_full v b h]
    have hlt : ¬ b.num_booths ≤ b.entries.length := fun hc => h ⟨hpos, hc⟩
    omega

theorem simulateFrom_spec (gen : ℕ → ℚ × ℚ) (closing : ℚ) (fuel : ℕ) :
    ∀ (i : ℕ) (time : ℚ) (b : VotingBooths),
      (simulateFrom gen closing fuel i time b).length ≤ fuel ∧
      (∀ j (hj : j < (simulateFrom gen closing fuel i time b).length),
        ((simulateFrom gen closing fuel i time b).get ⟨j, hj⟩).arrival_time
            = arrivalsFrom gen time i j ∧
        arrivalsFrom gen time i j ≤ closing) ∧
      ((simulateFrom gen closing fuel i time b).length < fuel →
        arrivalsFrom gen time i (simulateFrom gen closing fuel i time b).length
          > closing) := by
  induction fuel with
  | zero =>
    intro i time b
    refine ⟨by simp [simulateFrom], ?_, ?_⟩
    · intro j hj
      simp [simulateFrom] at hj
    · intro h
      simp at h
  | succ n ih =>
    intro i time b
    have harr : (simulate_single_vote (next_voter time (gen i).1 (gen i).2) b).1.arrival_time
        = time + (gen i).1 := by
      rw [simulate_single_vote_arrival]
      rfl
    rcases le_or_lt (time + (gen i).1) closing with hcl | hcl
    · have hstep : simulateFrom gen closing (n + 1) i time b
          = (simulate_single_vote (next_voter time (gen i).1 (gen i).2) b).1
            :: simulateFrom gen closing n (i + 1)
                (simulate_single_vote (next_voter time (gen i).1 (gen i).2) b).1.arrival_time
                (simulate_single_vote (next_voter time (gen i).1 (gen i).2) b).2 := by
        simp only [simulateFrom, next_voter]
        rw [if_neg (not_lt.mpr hcl)]
      rw [hstep, harr]
      obtain ⟨ih1, ih2, ih3⟩ := ih (i + 1) (time + (gen i).1)
        (simulate_single_vote (next_voter time (gen i).1 (gen i).2) b).2
      refine ⟨?_, ?_, ?_⟩
      · simpa using Nat.succ_le_succ ih1
      · intro j hj
        match j with
        | 0 =>
          refine ⟨?_, ?_⟩
          · simpa [arrivalsFrom] using harr
          · simpa [arrivalsFrom] using hcl
        | j + 1 =>
          have hj' : j < (simulateFrom gen closing n (i + 1) (time + (gen i).1)
              (simulate_single_vote (next_voter time (gen i).1 (gen i).2) b).2).length := by
            simpa using Nat.lt_of_succ_lt_succ hj
          have := ih2 j hj'
          simpa [arrivalsFrom] using this
      · intro hlen
        have hlen' : (simulateFrom gen closing n (i + 1) (time + (gen i).1)
            (simulate_single_vote (next_voter time (gen i).1 (gen i).2) b).2).length < n := by
          simpa using Nat.lt_of_succ_lt_succ hlen
        have := ih3 hlen'
        simpa [arrivalsFrom] using this
    · have hstep : simulateFrom gen closing (n + 1) i time b = [] := by
        simp only [simulateFrom, next_voter]
        rw [if_pos hcl]
      rw [hstep]
      refine ⟨by simp, ?_, ?_⟩
      · intro j hj
        simp at hj
      · intro _
        simpa [arrivalsFrom] using hcl

theorem simulateFrom_cons (gen : ℕ → ℚ × ℚ) (closing : ℚ) (n i : ℕ)
    (time : ℚ) (b : VotingBooths) (hcl : time + (gen i).1 ≤ closing) :
    simulateFrom gen closing (n + 1) i time b
      = (simulate_single_vote (next_voter time (gen i).1 (gen i).2) b).1
        :: simulateFrom gen closing n (i + 1)
            (simulate_single_vote (next_voter time (gen i).1 (gen i).2) b).1.arrival_time
            (simulate_single_vote (next_voter time (gen i).1 (gen i).2) b).2 := by
  simp only [simulateFrom, next_voter]
  rw [if_neg (not_lt.mpr hcl)]

theorem simulateFrom_break (gen : ℕ → ℚ × ℚ) (closing : ℚ) (n i : ℕ)
    (time : ℚ) (b : VotingBooths) (hcl : closing < time + (gen i).1) :
    simulateFrom gen closing (n + 1) i time b = [] := by
  simp only [simulateFrom, next_voter]
  rw [if_pos hcl]

theorem simulateBoothsFrom_cons (gen : ℕ → ℚ × ℚ) (closing : ℚ) (n i : ℕ)
    (time : ℚ) (b : VotingBooths) (hcl : time + (gen i).1 ≤ closing) :
    simulateBoothsFrom gen closing (n + 1) i time b
      = (simulate_single_vote (next_voter time (gen i).1 (gen i).2) b).2
        :: simulateBoothsFrom gen closing n (i + 1)
            (simulate_single_vote (next_voter time (gen i).1 (gen i).2) b).1.arrival_time
            (simulate_single_vote (next_voter time (gen i).1 (gen i).2) b).2 := by
  simp only [simulateBoothsFrom, next_voter]
  rw [if_neg (not_lt.mpr hcl)]

theorem simulateBoothsFrom_break (gen : ℕ → ℚ × ℚ) (closing : ℚ) (n i : ℕ)
    (time : ℚ) (b : VotingBooths) (hcl : closing < time + (gen i).1) :
    simulateBoothsFrom gen closing (n + 1) i time b = [] := by
  simp only [simulateBoothsFrom, next_voter]
  rw [if_pos hcl]

/-- C2: during a trial, the loop stops at the first generated voter whose
arrival time strictly exceeds `hours_open * 60` and that voter is not in the
returned list; the returned list is exactly the generated voters up to that
point (at most `max_num_voters` of them), in generation order, each with
arrival time at most the closing time. -/
theorem simulate_closing_boundary (p : Precinct) (rng : Rng)
    (percent_straight_ticket straight_ticket_duration : ℚ) (seed : ℕ) :
    (p.simulate rng percent_straight_ticket straight_ticket_duration seed).length
        ≤ p.max_num_voters ∧
    (∀ j (hj : j < (p.simulate rng percent_straight_ticket
        straight_ticket_duration seed).length),
      ((p.simulate rng percent_straight_ticket straight_ticket_duration
          seed).get ⟨j, hj⟩).arrival_time
          = arrivals (rng percent_straight_ticket straight_ticket_duration seed) j ∧
      arrivals (rng percent_straight_ticket straight_ticket_duration seed) j
          ≤ (p.hours_open : ℚ) * 60) ∧
    ((p.simulate rng percent_straight_ticket straight_ticket_duration
        seed).length < p.max_num_voters →
      arrivals (rng percent_straight_ticket straight_ticket_duration seed)
          (p.simulate rng percent_straight_ticket straight_ticket_duration
            seed).length
        > (p.hours_open : ℚ) * 60) :=
  simulateFrom_spec
    (rng percent_straight_ticket straight_ticket_duration seed)
    ((p.hours_open : ℚ) * 60) p.max_num_voters 0 0
    (VotingBooths.init p.num_booths)

theorem simulateFrom_resolved (gen : ℕ → ℚ × ℚ) (closing : ℚ) (fuel : ℕ) :
    ∀ (i : ℕ) (time : ℚ) (b : VotingBooths),
      ∀ v ∈ simulateFrom gen closing fuel i time b,
        ∃ st : ℚ, v.start_time = some st ∧
          v.departure_time = some (st + v.voting_duration) ∧
          v.arrival_time ≤ st := by
  induction fuel with
  | zero =>
    intro i time b v hv
    simp [simulateFrom] at hv
  | succ n ih =>
    intro i time b v hv
    rcases le_or_lt (time + (gen i).1) closing with hcl | hcl
    · rw [simulateFrom_cons gen closing n i time b hcl] at hv
      rcases List.mem_cons.mp hv with rfl | hv
      · obtain ⟨st, h1, h2, h3⟩ :=
          simulate_single_vote_resolved (next_voter time (gen i).1 (gen i).2) b
        refine ⟨st, h1, ?_, ?_⟩
        · rw [simulate_single_vote_duration]
          exact h2
        · rw [simulate_single_vote_arrival]
          exact h3
      · exact ih (i + 1) _ _ v hv
    · rw [simulateFrom_break gen closing n i time b hcl] at hv
      simp at hv

/-- C3: every voter returned by a trial has both scheduling fields set, with
`departure_time = start_time + voting_duration` and
`start_time ≥ arrival_time`; at creation (`next_voter`) both fields are
unset, so the two fields are always either both set or both unset. -/
theorem simulate_resolved (p : Precinct) (rng : Rng)
    (percent_straight_ticket straight_ticket_duration : ℚ) (seed : ℕ) :
    (∀ v ∈ p.simulate rng percent_straight_ticket straight_ticket_duration seed,
      ∃ st : ℚ, v.start_time = some st ∧
        v.departure_time = some (st + v.voting_duration) ∧
        v.arrival_time ≤ st) ∧
    (∀ time gap d : ℚ, (next_voter time gap d).start_time = none ∧
      (next_voter time gap d).departure_time = none) := by
  constructor
  · intro v hv
    exact simulateFrom_resolved _ _ p.max_num_voters 0 0 _ v hv
  · intro time gap d
    exact ⟨rfl, rfl⟩

theorem simulateFrom_no_wait (gen : ℕ → ℚ × ℚ) (closing : ℚ) (fuel : ℕ) :
    ∀ (i : ℕ) (time : ℚ) (b : VotingBooths),
      b.entries.length + fuel ≤ b.num_booths →
      ∀ v ∈ simulateFrom gen closing fuel i time b,
        v.start_time = some v.arrival_time := by
  induction fuel with
  | zero =>
    intro i time b _ v hv
    simp [simulateFrom] at hv
  | succ n ih =>
    intro i time b hb v hv
    have hnf : ¬ b.full := by
      intro hf
      have := hf.2
      omega
    rcases le_or_lt (time + (gen i).1) closing with hcl | hcl
    · rw [simulateFrom_cons gen closing n i time b hcl] at hv
      rcases List.mem_cons.mp hv with rfl | hv
      · rw [simulate_single_vote_not_full _ b hnf, simulate_single_vote_arrival]
      · apply ih (i + 1) _ _ ?_ v hv
        rw [simulate_single_vote_num_booths,
          simulate_single_vote_length_not_full _ b hnf]
        omega
    · rw [simulateFrom_break gen closing n i time b hcl] at hv
      simp at hv

/-- C7: when the precinct has at least as many booths as the voter cap and
every generated gap is positive, every admitted voter starts at its arrival
time (nobody waits). -/
theorem simulate_no_wait (p : Precinct) (rng : Rng)
    (percent_straight_ticket straight_ticket_duration : ℚ) (seed : ℕ)
    (hcap : p.max_num_voters ≤ p.num_booths)
    (hgap : ∀ i, 0 < (rng percent_straight_ticket straight_ticket_duration seed i).1) :
    ∀ v ∈ p.simulate rng percent_straight_ticket straight_ticket_duration seed,
      v.start_time = some v.arrival_time := by
  intro v hv
  refine simulateFrom_no_wait _ _ p.max_num_voters 0 0
    (VotingBooths.init p.num_booths) ?_ v hv
  simpa [VotingBooths.init] using hcap

theorem simulateBoothsFrom_capacity (gen : ℕ → ℚ × ℚ) (closing : ℚ) (fuel : ℕ) :
    ∀ (i : ℕ) (time : ℚ) (b : VotingBooths),
      0 < b.num_booths → b.entries.length ≤ b.num_booths →
      ∀ s ∈ simulateBoothsFrom gen closing fuel i time b,
        s.num_booths = b.num_booths ∧ s.entries.length ≤ b.num_booths := by
  induction fuel with
  | zero =>
    intro i time b _ _ s hs
    simp [simulateBoothsFrom] at hs
  | succ n ih =>
    intro i time b hpos hle s hs
    have hnb := simulate_single_vote_num_booths
      (next_voter time (gen i).1 (gen i).2) b
    have hcap2 := simulate_single_vote_capacity
      (next_voter time (gen i).1 (gen i).2) b hpos hle
    rcases le_or_lt (time + (gen i).1) closing with hcl | hcl
    · rw [simulateBoothsFrom_cons gen closing n i time b hcl] at hs
      rcases List.mem_cons.mp hs with rfl | hs
      · exact ⟨hnb, hcap2⟩
      · have := ih (i + 1)
          (simulate_single_vote (next_voter time (gen i).1 (gen i).2) b).1.arrival_time
          (simulate_single_vote (next_voter time (gen i).1 (gen i).2) b).2
          (by rw [hnb]; exact hpos) (by rw [hnb]; exact hcap2) s hs
        rw [hnb] at this
        exact this
    · rw [simulateBoothsFrom_break gen closing n i time b hcl] at hs
      simp at hs

/-- C8 (amended): when the precinct has at least one booth, the booth pool
never holds more entries than its capacity: every state reached after an
admission is within capacity, and the eviction step inside an admission only
shrinks the pool.  (With zero booths the underlying Python priority queue is
unbounded and the bound fails; see the counterexample.) -/
theorem simulate_booths_capacity (p : Precinct) (rng : Rng)
    (percent_straight_ticket straight_ticket_duration : ℚ) (seed : ℕ)
    (hcap : 1 ≤ p.num_booths) :
    (∀ s ∈ p.simulateBooths rng percent_straight_ticket
        straight_ticket_duration seed,
      s.entries.length ≤ p.num_booths) ∧
    (∀ b : VotingBooths, b.depart.2.entries.length ≤ b.entries.length) := by
  constructor
  · intro s hs
    exact (simulateBoothsFrom_capacity _ _ p.max_num_voters 0 0
      (VotingBooths.init p.num_booths) hcap (by simp [VotingBooths.init])
      s hs).2
  · intro b
    simp [VotingBooths.depart, List.length_tail]

/-- C8 counterexample: with `num_booths = 0` (an unbounded Python priority
queue) the trial admits a voter and the pool then holds one entry, strictly
more than its configured capacity of zero booths. -/
theorem simulate_booths_capacity_cex :
    ∃ s ∈ Precinct.simulateBooths ⟨"precinct", 1, 1, 0, 1, 1⟩
        (fun _ _ _ _ => (1, 1)) 0 0 0,
      (⟨"precinct", 1, 1, 0, 1, 1⟩ : Precinct).num_booths < s.entries.length := by
  refine ⟨⟨0, [2]⟩, ?_, by norm_num⟩
  norm_num [Precinct.simulateBooths, simulateBoothsFrom, next_voter,
    simulate_single_vote, VotingBooths.full, VotingBooths.init,
    VotingBooths.enter, VotingBooths.depart, List.orderedInsert]

theorem optSum_resolved (voters : List Voter)
    (h : ∀ v ∈ voters, ∃ st : ℚ, v.start_time = some st) :
    optSum (voters.map Voter.get_wait)
      = some ((voters.map (fun v => v.start_time.getD 0 - v.arrival_time)).sum) := by
  induction voters with
  | nil => simp [optSum]
  | cons v rest ih =>
    obtain ⟨st, hst⟩ := h v (List.mem_cons_self v rest)
    have hrest := ih (fun w hw => h w (List.mem_cons_of_mem v hw))
    simp [optSum, Voter.get_wait, hst, hrest]

theorem avg_wait_nil : avg_wait [] = .error .noVotersAdmitted := rfl

theorem avg_wait_resolved (voters : List Voter)
    (h : ∀ v ∈ voters, ∃ st : ℚ, v.start_time = some st)
    (hne : voters ≠ []) :
    avg_wait voters = .ok (specMeanWait voters) := by
  unfold avg_wait
  rw [optSum_resolved voters h]
  have hlen : voters.length ≠ 0 := fun h0 => hne (List.length_eq_zero.mp h0)
  simp [specMeanWait, hlen]

theorem simulate_all_resolved (p : Precinct) (rng : Rng)
    (percent_straight_ticket straight_ticket_duration : ℚ) (seed : ℕ) :
    ∀ v ∈ p.simulate rng percent_straight_ticket straight_ticket_duration seed,
      ∃ st : ℚ, v.start_time = some st := by
  intro v hv
  obtain ⟨st, h1, -, -⟩ :=
    simulateFrom_resolved _ _ p.max_num_voters 0 0 _ v hv
  exact ⟨st, h1⟩

theorem trial_avg_list_unfold (p : Precinct) (rng : Rng)
    (percent_straight_ticket straight_ticket_duration : ℚ)
    (initial_seed n i : ℕ) :
    trial_avg_list p rng percent_straight_ticket straight_ticket_duration
        initial_seed (n + 1) i
      = Except.bind
          (avg_wait (p.simulate rng percent_straight_ticket
            straight_ticket_duration (initial_seed + i)))
          (fun a => Except.bind
            (trial_avg_list p rng percent_straight_ticket
              straight_ticket_duration initial_seed n (i + 1))
            (fun rest => Except.ok (a :: rest))) := rfl

theorem trial_avg_list_ok (p : Precinct) (rng : Rng)
    (percent_straight_ticket straight_ticket_duration : ℚ)
    (initial_seed : ℕ) (fuel : ℕ) :
    ∀ (i : ℕ) (lst : List ℚ),
      trial_avg_list p rng percent_straight_ticket straight_ticket_duration
        initial_seed fuel i = .ok lst →
      lst.length = fuel ∧
      ∀ j (hj : j < lst.length),
        lst.get ⟨j, hj⟩ = specMeanWait (p.simulate rng percent_straight_ticket
          straight_ticket_duration (initial_seed + (i + j))) := by
  induction fuel with
  | zero =>
    intro i lst h
    simp only [trial_avg_list, Except.ok.injEq] at h
    subst h
    refine ⟨rfl, ?_⟩
    intro j hj
    simp at hj
  | succ n ih =>
    intro i lst h
    rw [trial_avg_list_unfold] at h
    cases ha : avg_wait (p.simulate rng percent_straight_ticket
        straight_ticket_duration (initial_seed + i)) with
    | error e =>
      rw [ha] at h
      simp [Except.bind] at h
    | ok a =>
      rw [ha] at h
      cases hr : trial_avg_list p rng percent_straight_ticket
          straight_ticket_duration initial_seed n (i + 1) with
      | error e =>
        rw [hr] at h
        simp [Except.bind] at h
      | ok rest =>
        rw [hr] at h
        simp only [Except.bind, Except.ok.injEq] at h
        subst h
        obtain ⟨ih1, ih2⟩ := ih (i + 1) rest hr
        refine ⟨by simp [ih1], ?_⟩
        intro j hj
        match j with
        | 0 =>
          have hne : p.simulate rng percent_straight_ticket
              straight_ticket_duration (initial_seed + i) ≠ [] := by
            intro h0
            rw [h0, avg_wait_nil] at ha
            exact absurd ha (by simp)
          have hres := avg_wait_resolved _
            (simulate_all_resolved p rng percent_straight_ticket
              straight_ticket_duration (initial_seed + i)) hne
          rw [hres] at ha
          simp only [Except.ok.injEq] at ha
          simpa using ha.symm
        | j + 1 =>
          have hj' : j < rest.length := by
            have := hj
            simp at this
            omega
          have := ih2 j hj'
          have harith : i + 1 + j = i + (j + 1) := by omega
          rw [harith] at this
          simpa using this

/-- C5: when `trial_avg_list` succeeds it has recorded exactly `ntrials`
per-trial averages, the one at index `i` coming from the simulation seeded
with `initial_seed + i`, and each recorded average is the arithmetic mean of
`start_time - arrival_time` over the admitted voters of that trial. -/
theorem find_avg_wait_time_trials (p : Precinct) (rng : Rng)
    (percent_straight_ticket straight_ticket_duration : ℚ)
    (ntrials initial_seed : ℕ) (lst : List ℚ)
    (hn : 1 ≤ ntrials)
    (hok : trial_avg_list p rng percent_straight_ticket
      straight_ticket_duration initial_seed ntrials 0 = .ok lst) :
    lst.length = ntrials ∧
    ∀ j (hj : j < lst.length),
      lst.get ⟨j, hj⟩ = specMeanWait (p.simulate rng percent_straight_ticket
        straight_ticket_duration (initial_seed + j)) := by
  obtain ⟨h1, h2⟩ := trial_avg_list_ok p rng percent_straight_ticket
    straight_ticket_duration initial_seed ntrials 0 lst hok
  refine ⟨h1, ?_⟩
  intro j hj
  simpa using h2 j hj

theorem selectMedian_ne_noVoters (lst : List ℚ) (ntrials : ℕ) :
    selectMedian lst ntrials ≠ .error .noVotersAdmitted := by
  unfold selectMedian
  cases h : (lst.insertionSort (· ≤ ·))[ntrials / 2]? with
  | none => simp
  | some x => simp

theorem trial_avg_list_noVoters_iff (p : Precinct) (rng : Rng)
    (percent_straight_ticket straight_ticket_duration : ℚ)
    (initial_seed : ℕ) (fuel : ℕ) :
    ∀ i : ℕ,
      (trial_avg_list p rng percent_straight_ticket straight_ticket_duration
          initial_seed fuel i = .error .noVotersAdmitted
        ↔ ∃ j, j < fuel ∧ p.simulate rng percent_straight_ticket
            straight_ticket_duration (initial_seed + (i + j)) = []) := by
  induction fuel with
  | zero =>
    intro i
    simp [trial_avg_list]
  | succ n ih =>
    intro i
    rw [trial_avg_list_unfold]
    by_cases hemp : p.simulate rng percent_straight_ticket
        straight_ticket_duration (initial_seed + i) = []
    · rw [hemp, avg_wait_nil]
      constructor
      · intro _
        exact ⟨0, by omega, by simpa using hemp⟩
      · intro _
        rfl
    · have hres := avg_wait_resolved _
        (simulate_all_resolved p rng percent_straight_ticket
          straight_ticket_duration (initial_seed + i)) hemp
      rw [hres]
      constructor
      · intro h
        cases hr : trial_avg_list p rng percent_straight_ticket
            straight_ticket_duration initial_seed n (i + 1) with
        | error e =>
          rw [hr] at h
          simp only [Except.bind] at h
          cases h
          obtain ⟨j, hj, hx⟩ := (ih (i + 1)).mp hr
          refine ⟨j + 1, by omega, ?_⟩
          have harith : i + 1 + j = i + (j + 1) := by omega
          rw [harith] at hx
          exact hx
        | ok rest =>
          rw [hr] at h
          simp [Except.bind] at h
      · rintro ⟨j, hj, hx⟩
        match j with
        | 0 =>
          exact absurd (by simpa using hx) hemp
        | j + 1 =>
          have hx' : p.simulate rng percent_straight_ticket
              straight_ticket_duration (initial_seed + (i + 1 + j)) = [] := by
            have harith : i + 1 + j = i + (j + 1) := by omega
            rw [harith]
            exact hx
          have := (ih (i + 1)).mpr ⟨j, by omega, hx'⟩
          rw [this]
          rfl

theorem find_avg_wait_time_unfold (p : Precinct) (rng : Rng)
    (percent_straight_ticket straight_ticket_duration : ℚ)
    (ntrials initial_seed : ℕ) :
    find_avg_wait_time p rng percent_straight_ticket straight_ticket_duration
        ntrials initial_seed
      = Except.bind
          (trial_avg_list p rng percent_straight_ticket
            straight_ticket_duration initial_seed ntrials 0)
          (fun lst => selectMedian lst ntrials) := rfl

/-- C9: the aggregator propagates the degenerate-trial error exactly when
some trial in range admits zero voters: `find_avg_wait_time` evaluates to
the `noVotersAdmitted` error (the `ZeroDivisionError` of the Python code on
an empty trial) if and only if one of the `ntrials` seeded simulations
returns an empty voter list. -/
theorem find_avg_wait_time_noVoters_iff (p : Precinct) (rng : Rng)
    (percent_straight_ticket straight_ticket_duration : ℚ)
    (ntrials initial_seed : ℕ) :
    find_avg_wait_time p rng percent_straight_ticket straight_ticket_duration
        ntrials initial_seed = .error .noVotersAdmitted
      ↔ ∃ i, i < ntrials ∧ p.simulate rng percent_straight_ticket
          straight_ticket_duration (initial_seed + i) = [] := by
  rw [find_avg_wait_time_unfold]
  cases h : trial_avg_list p rng percent_straight_ticket
      straight_ticket_duration initial_seed ntrials 0 with
  | error e =>
    have hiff := trial_avg_list_noVoters_iff p rng percent_straight_ticket
      straight_ticket_duration initial_seed ntrials 0
    rw [h] at hiff
    simp only [Except.bind]
    constructor
    · intro hh
      cases hh
      simpa using hiff.mp rfl
    · rintro ⟨i, hi, hx⟩
      have : Except.error (α := List ℚ) e = .error .noVotersAdmitted :=
        hiff.mpr ⟨i, hi, by simpa using hx⟩
      cases this
      rfl
  | ok lst =>
    simp only [Except.bind]
    constructor
    · intro hc
      exact absurd hc (selectMedian_ne_noVoters lst ntrials)
    · rintro ⟨i, hi, hx⟩
      have hiff := trial_avg_list_noVoters_iff p rng percent_straight_ticket
        straight_ticket_duration initial_seed ntrials 0
      have herr := hiff.mpr ⟨i, hi, by simpa using hx⟩
      rw [h] at herr
      cases herr

/-- C4: the aggregator sorts the collected per-trial averages ascending and
returns the element at index `ntrials // 2`: for a list of `ntrials ≥ 1`
averages the returned value is the `ntrials // 2`-th element of a sorted
permutation of the averages, `find_avg_wait_time` applies exactly this rule
to the collected averages, and on the concrete averages `[3, 1, 2]` (three
trials) it yields `2` while on `[1, 2, 3, 4]` (four trials) it yields `3`,
the upper-middle element. -/
theorem find_avg_median_rule :
    (∀ (lst : List ℚ) (ntrials : ℕ), lst.length = ntrials → 1 ≤ ntrials →
      ∃ (s : List ℚ) (h : ntrials / 2 < s.length),
        s.Perm lst ∧ s.Sorted (· ≤ ·) ∧
        selectMedian lst ntrials = .ok (s.get ⟨ntrials / 2, h⟩)) ∧
    (∀ (p : Precinct) (rng : Rng)
        (percent_straight_ticket straight_ticket_duration : ℚ)
        (ntrials seed : ℕ) (lst : List ℚ),
      trial_avg_list p rng percent_straight_ticket straight_ticket_duration
        seed ntrials 0 = .ok lst →
      find_avg_wait_time p rng percent_straight_ticket
        straight_ticket_duration ntrials seed = selectMedian lst ntrials) ∧
    selectMedian [3, 1, 2] 3 = .ok 2 ∧
    selectMedian [1, 2, 3, 4] 4 = .ok 3 := by
  refine ⟨?_, ?_, by rfl, by rfl⟩
  · intro lst ntrials hlen hpos
    have hlt : ntrials / 2 < (lst.insertionSort (· ≤ ·)).length := by
      rw [List.length_insertionSort, hlen]
      exact Nat.div_lt_self (by omega) (by omega)
    refine ⟨lst.insertionSort (· ≤ ·), hlt,
      List.perm_insertionSort _ _, List.sorted_insertionSort _ _, ?_⟩
    unfold selectMedian
    rw [List.getElem?_eq_getElem hlt]
    simp [List.get_eq_getElem]
  · intro p rng percent_straight_ticket straight_ticket_duration ntrials seed lst h
    rw [find_avg_wait_time_unfold, h]
    rfl

theorem split_loop_unfold (p : Precinct) (rng : Rng)
    (straight_ticket_duration target_wait_time : ℚ)
    (ntrials seed : ℕ) (n i : ℕ) :
    split_loop p rng straight_ticket_duration target_wait_time ntrials seed
        (n + 1) i
      = Except.bind
          (find_avg_wait_time p rng (1 - (i : ℚ) / 10)
            straight_ticket_duration ntrials seed)
          (fun avg_wait_time =>
            if avg_wait_time > target_wait_time then
              .ok ((i : ℚ) / 10, some avg_wait_time)
            else
              split_loop p rng straight_ticket_duration target_wait_time
                ntrials seed n (i + 1)) := rfl

theorem split_loop_found (p : Precinct) (rng : Rng)
    (straight_ticket_duration target_wait_time : ℚ)
    (ntrials seed : ℕ) (fuel : ℕ) :
    ∀ i k : ℕ, i ≤ k → k < i + fuel →
      (∀ j, i ≤ j → j < k →
        ∃ w, find_avg_wait_time p rng (1 - (j : ℚ) / 10)
            straight_ticket_duration ntrials seed = .ok w ∧
          ¬ target_wait_time < w) →
      ∀ w, find_avg_wait_time p rng (1 - (k : ℚ) / 10)
          straight_ticket_duration ntrials seed = .ok w →
        target_wait_time < w →
        split_loop p rng straight_ticket_duration target_wait_time ntrials
          seed fuel i = .ok ((k : ℚ) / 10, some w) := by
  induction fuel with
  | zero =>
    intro i k h1 h2
    omega
  | succ n ih =>
    intro i k hik hk hprev w hw hgt
    rcases eq_or_lt_of_le hik with rfl | hlt
    · rw [split_loop_unfold, hw]
      simp [Except.bind, hgt]
    · obtain ⟨w0, hw0, hnot⟩ := hprev i (le_refl i) hlt
      rw [split_loop_unfold, hw0]
      simp only [Except.bind, gt_iff_lt, if_neg hnot]
      exact ih (i + 1) k hlt (by omega)
        (fun j hj1 hj2 => hprev j (by omega) hj2) w hw hgt

theorem split_loop_sentinel (p : Precinct) (rng : Rng)
    (straight_ticket_duration target_wait_time : ℚ)
    (ntrials seed : ℕ) (fuel : ℕ) :
    ∀ i : ℕ,
      (∀ j, i ≤ j → j < i + fuel →
        ∃ w, find_avg_wait_time p rng (1 - (j : ℚ) / 10)
            straight_ticket_duration ntrials seed = .ok w ∧
          ¬ target_wait_time < w) →
      split_loop p rng straight_ticket_duration target_wait_time ntrials seed
        fuel i = .ok (1, none) := by
  induction fuel with
  | zero =>
    intro i _
    rfl
  | succ n ih =>
    intro i hall
    obtain ⟨w, hw, hnot⟩ := hall i (le_refl i) (by omega)
    rw [split_loop_unfold, hw]
    simp only [Except.bind, gt_iff_lt, if_neg hnot]
    exact ih (i + 1) (fun j h1 h2 => hall j (by omega) (by omega))

/-- C6: the split-ticket search sweeps `percent_split_ticket` over
`0/10, 1/10, …, 10/10` in increasing order, calling the aggregator with
`percent_straight_ticket = 1 - percent_split_ticket`; it returns the pair
of the first swept percentage whose median average wait strictly exceeds
the target together with that wait, and the sentinel `(1, none)` when no
swept value exceeds the target. -/
theorem find_percent_split_ticket_spec (p : Precinct) (rng : Rng)
    (straight_ticket_duration target_wait_time : ℚ) (ntrials seed : ℕ) :
    (∀ k : ℕ, k < 11 →
      (∀ j, j < k →
        ∃ w, find_avg_wait_time p rng (1 - (j : ℚ) / 10)
            straight_ticket_duration ntrials seed = .ok w ∧
          ¬ target_wait_time < w) →
      ∀ w, find_avg_wait_time p rng (1 - (k : ℚ) / 10)
          straight_ticket_duration ntrials seed = .ok w →
        target_wait_time < w →
        find_percent_split_ticket p rng straight_ticket_duration
          target_wait_time ntrials seed = .ok ((k : ℚ) / 10, some w)) ∧
    ((∀ j : ℕ, j < 11 →
        ∃ w, find_avg_wait_time p rng (1 - (j : ℚ) / 10)
            straight_ticket_duration ntrials seed = .ok w ∧
          ¬ target_wait_time < w) →
      find_percent_split_ticket p rng straight_ticket_duration
        target_wait_time ntrials seed = .ok (1, none)) := by
  constructor
  · intro k hk hprev w hw hgt
    exact split_loop_found p rng straight_ticket_duration target_wait_time
      ntrials seed 11 0 k (Nat.zero_le k) (by omega)
      (fun j _ hj => hprev j hj) w hw hgt
  · intro hall
    exact split_loop_sentinel p rng straight_ticket_duration target_wait_time
      ntrials seed 11 0 (fun j _ hj => hall j (by omega))

theorem simulate_single_vote_admission_witness :
    List.Sorted (· ≤ ·) ([5] : List ℚ) ∧
    ∃ st : ℚ,
      (simulate_single_vote ⟨3, 2, none, none⟩ ⟨1, [5]⟩).1.start_time = some st ∧
      (simulate_single_vote ⟨3, 2, none, none⟩ ⟨1, [5]⟩).1.departure_time
        = some (st + 2) := by
  refine ⟨by simp, ?_⟩
  obtain ⟨st, h1, h2, -⟩ :=
    simulate_single_vote_admission ⟨3, 2, none, none⟩ ⟨1, [5]⟩ (by simp)
  exact ⟨st, h1, h2⟩

theorem simulate_closing_boundary_witness :
    ((⟨"w", 1, 2, 1, 1, 1⟩ : Precinct).simulate
      (fun _ _ _ _ => (1, 5)) 0 0 0).length ≤ 2 :=
  (simulate_closing_boundary ⟨"w", 1, 2, 1, 1, 1⟩ (fun _ _ _ _ => (1, 5)) 0 0 0).1

theorem simulate_resolved_witness :
    (⟨1, 5, some 1, some 6⟩ : Voter) ∈
      (⟨"w", 1, 1, 1, 1, 1⟩ : Precinct).simulate (fun _ _ _ _ => (1, 5)) 0 0 0 ∧
    ∃ st : ℚ, (⟨1, 5, some 1, some 6⟩ : Voter).start_time = some st := by
  have hmem : (⟨1, 5, some 1, some 6⟩ : Voter) ∈
      (⟨"w", 1, 1, 1, 1, 1⟩ : Precinct).simulate (fun _ _ _ _ => (1, 5)) 0 0 0 := by
    norm_num [Precinct.simulate, simulateFrom, next_voter, simulate_single_vote,
      VotingBooths.full, VotingBooths.init, VotingBooths.enter,
      VotingBooths.depart, List.orderedInsert]
  refine ⟨hmem, ?_⟩
  obtain ⟨st, h1, -, -⟩ :=
    (simulate_resolved ⟨"w", 1, 1, 1, 1, 1⟩ (fun _ _ _ _ => (1, 5)) 0 0 0).1 _ hmem
  exact ⟨st, h1⟩

theorem find_avg_median_rule_witness :
    ∃ (s : List ℚ) (h : 3 / 2 < s.length),
      s.Perm [3, 1, 2] ∧ s.Sorted (· ≤ ·) ∧
      selectMedian [3, 1, 2] 3 = .ok (s.get ⟨3 / 2, h⟩) :=
  find_avg_median_rule.1 [3, 1, 2] 3 (by norm_num) (by norm_num)

theorem find_avg_wait_time_trials_witness :
    trial_avg_list ⟨"w", 1, 1, 1, 1, 1⟩ (fun _ _ _ _ => (1, 5)) 0 5 0 2 0
      = .ok [0, 0] ∧
    ([0, 0] : List ℚ).length = 2 := by
  have hok : trial_avg_list ⟨"w", 1, 1, 1, 1, 1⟩ (fun _ _ _ _ => (1, 5)) 0 5 0 2 0
      = .ok [0, 0] := by
    norm_num [trial_avg_list, Precinct.simulate, simulateFrom, next_voter,
      simulate_single_vote, VotingBooths.full, VotingBooths.init,
      VotingBooths.enter, VotingBooths.depart, List.orderedInsert,
      avg_wait, optSum, Voter.get_wait, Except.bind, Except.pure, Except.instMonad]
  exact ⟨hok, (find_avg_wait_time_trials ⟨"w", 1, 1, 1, 1, 1⟩
    (fun _ _ _ _ => (1, 5)) 0 5 2 0 [0, 0] (by norm_num) hok).1⟩

theorem find_percent_split_ticket_spec_witness :
    find_percent_split_ticket ⟨"w", 1, 1, 1, 1, 1⟩ (fun _ _ _ _ => (1, 5))
        5 (-1) 1 0
      = .ok (((0 : ℕ) : ℚ) / 10, some 0) := by
  refine (find_percent_split_ticket_spec ⟨"w", 1, 1, 1, 1, 1⟩
    (fun _ _ _ _ => (1, 5)) 5 (-1) 1 0).1 0 (by norm_num)
    (fun j hj => absurd hj (by omega)) 0 ?_ (by norm_num)
  norm_num [find_avg_wait_time, trial_avg_list, selectMedian,
    Precinct.simulate, simulateFrom, next_voter, simulate_single_vote,
    VotingBooths.full, VotingBooths.init, VotingBooths.enter,
    VotingBooths.depart, List.orderedInsert, List.insertionSort,
    avg_wait, optSum, Voter.get_wait, Except.bind, Except.pure, Except.instMonad]

theorem simulate_no_wait_witness :
    (⟨1, 5, some 1, some 6⟩ : Voter) ∈
      (⟨"w", 1, 1, 1, 1, 1⟩ : Precinct).simulate (fun _ _ _ _ => (1, 5)) 0 0 0 ∧
    (⟨1, 5, some 1, some 6⟩ : Voter).start_time
      = some (⟨1, 5, some 1, some 6⟩ : Voter).arrival_time := by
  have hmem : (⟨1, 5, some 1, some 6⟩ : Voter) ∈
      (⟨"w", 1, 1, 1, 1, 1⟩ : Precinct).simulate (fun _ _ _ _ => (1, 5)) 0 0 0 := by
    norm_num [Precinct.simulate, simulateFrom, next_voter, simulate_single_vote,
      VotingBooths.full, VotingBooths.init, VotingBooths.enter,
      VotingBooths.depart, List.orderedInsert]
  exact ⟨hmem, simulate_no_wait ⟨"w", 1, 1, 1, 1, 1⟩ (fun _ _ _ _ => (1, 5))
    0 0 0 (by norm_num) (fun i => by norm_num) _ hmem⟩

theorem simulate_booths_capacity_witness :
    (⟨1, [6]⟩ : VotingBooths) ∈
      Precinct.simulateBooths ⟨"w", 1, 1, 1, 1, 1⟩ (fun _ _ _ _ => (1, 5)) 0 5 0 ∧
    (⟨1, [6]⟩ : VotingBooths).entries.length ≤ 1 := by
  have hmem : (⟨1, [6]⟩ : VotingBooths) ∈
      Precinct.simulateBooths ⟨"w", 1, 1, 1, 1, 1⟩ (fun _ _ _ _ => (1, 5)) 0 5 0 := by
    norm_num [Precinct.simulateBooths, simulateBoothsFrom, next_voter,
      simulate_single_vote, VotingBooths.full, VotingBooths.init,
      VotingBooths.enter, VotingBooths.depart, List.orderedInsert]
  exact ⟨hmem, (simulate_booths_capacity ⟨"w", 1, 1, 1, 1, 1⟩
    (fun _ _ _ _ => (1, 5)) 0 5 0 (by norm_num)).1 _ hmem⟩

theorem find_avg_wait_time_noVoters_iff_witness :
    find_avg_wait_time ⟨"w", 0, 1, 1, 1, 1⟩ (fun _ _ _ _ => (1, 5)) 0 5 1 0
      = .error .noVotersAdmitted :=
  (find_avg_wait_time_noVoters_iff ⟨"w", 0, 1, 1, 1, 1⟩
    (fun _ _ _ _ => (1, 5)) 0 5 1 0).mpr
    ⟨0, by norm_num, by norm_num [Precinct.simulate, simulateFrom, next_voter]⟩
